import Mathlib

/-!
Shallow embedding of the persistence layer of the workout-tracking app
(source: src/app/lib/indexdb_handler.tsx, object ExerciseDB).

Modelling conventions:
* JavaScript numbers are modelled as exact rationals.
* A JavaScript value that may be null or undefined is an Option; none
  stands for null/undefined/absent.
* The IndexedDB database is a record DB holding the three object stores
  as lists in insertion order together with the auto-increment key
  generators (which start at 1, as in IndexedDB).
* IndexedDB semantics embedded here: store.put is insert-or-replace by
  key; store.add fails with a ConstraintError when the key (or a unique
  index value) is already present; a failed request whose error is not
  defaulted aborts its transaction, rolling back every change made in
  that transaction; store.get of an absent key yields undefined.
* Record dates have the form YYYY-MM-DD, for which the chronological
  order used by the source (via Date.getTime) coincides with
  lexicographic order on the character sequence; dates are compared
  lexicographically here.
* Array.prototype.sort is stable; it is modelled by a stable insertion
  sort with the same boolean comparator.
-/

/-- JavaScript truthiness test for a number-or-null/undefined value:
null, undefined and 0 are falsy. (NaN, the remaining falsy number,
has no rational counterpart.) -/
def jsNumFalsy (x : Option ℚ) : Bool :=
  match x with
  | none => true
  | some v => v == 0

/-- The expression (x || null) of the source applied to a
number-or-null value: a falsy value is replaced by null. -/
def jsNumOrNull (x : Option ℚ) : Option ℚ :=
  if jsNumFalsy x then none else x

/-- The expression (x || d) of the source applied to a string:
the empty string is the only falsy string. -/
def jsStrOr (x d : String) : String :=
  if x == "" then d else x

/-- The expression (x || d) of the source applied to an optional
string (undefined and the empty string are falsy). -/
def jsOptStrOr (x : Option String) (d : String) : String :=
  match x with
  | none => d
  | some v => jsStrOr v d

/-- JavaScript truthiness for an optional numeric id (undefined and 0
are falsy). -/
def jsIdFalsy (x : Option Nat) : Bool :=
  match x with
  | none => true
  | some v => v == 0

/-- interface Exercise of the source. -/
structure Exercise where
  name : String
  type : String
  defaultCount : String
  instruction : String
deriving DecidableEq

/-- A record as stored in the records object store. The source's
addRecord always materialises every field (weight and rpe as null when
falsy, unit defaulted), but the store itself can hold objects with
absent optional fields, hence the Options. -/
structure StoredRecord where
  id : Nat
  exerciseName : String
  date : String
  time : String
  count : ℚ
  rpe : Option ℚ
  note : String
  weight : Option ℚ
  unit : Option String
deriving DecidableEq

/-- Omit ExerciseRecord id — the argument of addRecord. Fields follow
interface ExerciseRecord: exerciseName, date, time, count, rpe, note
required; weight, unit optional. The source coerces a string count
with parseInt; with the declared number type that branch is inert, so
count is a number here. -/
structure RecordInput where
  exerciseName : String
  date : String
  time : String
  count : ℚ
  rpe : Option ℚ
  note : String
  weight : Option ℚ
  unit : Option String
deriving DecidableEq

/-- The full ExerciseRecord argument of updateRecord, spread over the
stored record: required fields always override, optional fields (id,
weight, unit) override only when present. -/
structure RecordPatch where
  id : Option Nat
  exerciseName : String
  date : String
  time : String
  count : ℚ
  rpe : Option ℚ
  note : String
  weight : Option ℚ
  unit : Option String
deriving DecidableEq

/-- interface PlanExercise of the source. -/
structure PlanExercise where
  name : String
  count : Int
deriving DecidableEq

/-- A plan as stored in the plans object store. -/
structure StoredPlan where
  id : Nat
  name : String
  exercises : List PlanExercise
  schedule : String
  createdAt : String
  updatedAt : Option String
deriving DecidableEq

/-- Omit Plan id — the argument of addPlan. -/
structure PlanInput where
  name : String
  exercises : List PlanExercise
  schedule : String
  createdAt : String
  updatedAt : Option String
deriving DecidableEq

/-- The full Plan argument of updatePlan, spread over the stored plan:
required fields (name, exercises, schedule, createdAt) always
override, optional fields (id, updatedAt) only when present. -/
structure PlanPatch where
  id : Option Nat
  name : String
  exercises : List PlanExercise
  schedule : String
  createdAt : String
  updatedAt : Option String
deriving DecidableEq

/-- The whole database: the three object stores in insertion order
plus the auto-increment key generators of the records and plans
stores (IndexedDB generators start at 1). -/
structure DB where
  exercises : List Exercise
  records : List StoredRecord
  nextRecordId : Nat
  plans : List StoredPlan
  nextPlanId : Nat
deriving DecidableEq

instance {ε α : Type} [DecidableEq ε] [DecidableEq α] : DecidableEq (Except ε α) :=
  fun x y =>
    match x, y with
    | Except.ok a, Except.ok b =>
      if h : a = b then isTrue (by rw [h]) else isFalse (fun he => by cases he; exact h rfl)
    | Except.ok _, Except.error _ => isFalse (fun he => by cases he)
    | Except.error _, Except.ok _ => isFalse (fun he => by cases he)
    | Except.error e, Except.error f =>
      if h : e = f then isTrue (by rw [h]) else isFalse (fun he => by cases he; exact h rfl)

/-- A fresh database, as produced by the onupgradeneeded bootstrap. -/
def emptyDB : DB :=
  { exercises := [], records := [], nextRecordId := 1, plans := [], nextPlanId := 1 }

/-- store.put on the exercises store (keyPath name): replace the entry
with the same key, or append a new one. -/
def putExercise (e : Exercise) (l : List Exercise) : List Exercise :=
  if l.any (fun x => x.name == e.name) then
    l.map (fun x => if x.name == e.name then e else x)
  else l ++ [e]

/-- addExercise: a single put on the exercises store; always resolves
true. -/
def addExercise (e : Exercise) (s : DB) : DB × Bool :=
  ({ s with exercises := putExercise e s.exercises }, true)

/-- getExercise: store.get by the name key; undefined when absent. -/
def getExercise (exerciseName : String) (s : DB) : Option Exercise :=
  s.exercises.find? (fun x => x.name == exerciseName)

/-- getAllExercises: store.getAll on the exercises store. -/
def getAllExercises (s : DB) : List Exercise :=
  s.exercises

/-- updateExercise: one readwrite transaction on the exercises store
that deletes oldName and then store.add's the updated exercise.
store.add fails with a ConstraintError when the new name is already a
key, and the failed request aborts the transaction, rolling the
delete back; in that case the database is returned unchanged. -/
def updateExercise (oldName : String) (updatedExercise : Exercise) (s : DB) :
    DB × Except String Bool :=
  let afterDelete := s.exercises.filter (fun x => !(x.name == oldName))
  if afterDelete.any (fun x => x.name == updatedExercise.name) then
    (s, Except.error ("ConstraintError"))
  else
    ({ s with exercises := afterDelete ++ [updatedExercise] }, Except.ok true)

/-- getRecordsByExercise: index getAll on the exerciseNameIndex. -/
def getRecordsByExercise (exerciseName : String) (s : DB) : List StoredRecord :=
  s.records.filter (fun r => r.exerciseName == exerciseName)

/-- recordStore.delete(rid): removes the record with that key. -/
def deleteRecordKey (rid : Nat) (s : DB) : DB :=
  { s with records := s.records.filter (fun r => !(r.id == rid)) }

/-- deleteExercise: fetches the records of the exercise, deletes each
one whose id is truthy in a records transaction, then deletes the
exercise itself in a second transaction; resolves true. -/
def deleteExercise (exerciseName : String) (s : DB) : DB × Bool :=
  let records := getRecordsByExercise exerciseName s
  let s1 := records.foldl
    (fun acc record => if record.id ≠ 0 then deleteRecordKey record.id acc else acc) s
  let s2 := { s1 with exercises := s1.exercises.filter (fun e => !(e.name == exerciseName)) }
  (s2, true)

/-- addRecord: store.add of the normalised record; date and time
default to the current date and time when falsy, rpe and weight are
replaced by null when falsy, note defaults to the empty string and
unit to lbs. Resolves with the generated key. -/
def addRecord (nowDate nowTime : String) (record : RecordInput) (s : DB) : DB × Nat :=
  let stored : StoredRecord :=
    { id := s.nextRecordId
      exerciseName := record.exerciseName
      date := jsStrOr record.date nowDate
      time := jsStrOr record.time nowTime
      count := record.count
      rpe := jsNumOrNull record.rpe
      note := jsStrOr record.note ""
      weight := jsNumOrNull record.weight
      unit := some (jsOptStrOr record.unit ("lbs")) }
  ({ s with records := s.records ++ [stored], nextRecordId := s.nextRecordId + 1 },
   s.nextRecordId)

/-- deleteRecord: throws when the id is falsy (undefined or 0),
otherwise deletes by primary key and resolves true. -/
def deleteRecord (recordId : Option Nat) (s : DB) : DB × Except String Bool :=
  if jsIdFalsy recordId then
    (s, Except.error ("Record ID is required"))
  else
    match recordId with
    | none => (s, Except.error ("Record ID is required"))
    | some rid => (deleteRecordKey rid s, Except.ok true)

/-- The object spread of updateRecord: the patch's fields override the
stored record's; optional patch fields only when present. -/
def mergeRecord (old : StoredRecord) (p : RecordPatch) : StoredRecord :=
  { id := p.id.getD old.id
    exerciseName := p.exerciseName
    date := p.date
    time := p.time
    count := p.count
    rpe := p.rpe
    note := p.note
    weight := match p.weight with | some v => some v | none => old.weight
    unit := match p.unit with | some v => some v | none => old.unit }

/-- store.put on the records store (keyPath id). -/
def putRecord (r : StoredRecord) (l : List StoredRecord) : List StoredRecord :=
  if l.any (fun x => x.id == r.id) then
    l.map (fun x => if x.id == r.id then r else x)
  else l ++ [r]

/-- updateRecord: throws when the id is falsy; rejects with a
not-found error when store.get yields nothing, leaving the store
untouched; otherwise spreads the patch over the stored record and
puts the result. -/
def updateRecord (id : Option Nat) (record : RecordPatch) (s : DB) :
    DB × Except String Bool :=
  if jsIdFalsy id then
    (s, Except.error ("Record ID is required"))
  else
    match id with
    | none => (s, Except.error ("Record ID is required"))
    | some rid =>
      match s.records.find? (fun r => r.id == rid) with
      | none => (s, Except.error ("Record not found"))
      | some existingRecord =>
        ({ s with records := putRecord (mergeRecord existingRecord record) s.records },
         Except.ok true)

/-- getAllPlans: store.getAll on the plans store, in key (id) order,
which coincides with insertion order for generated keys. -/
def getAllPlans (s : DB) : List StoredPlan :=
  s.plans

/-- addPlan: store.add of the plan with createdAt overwritten by the
current timestamp. The only failure is the unique name index
(ConstraintError on a duplicate name); no field is validated.
Resolves with the generated key. -/
def addPlan (now : String) (plan : PlanInput) (s : DB) : DB × Except String Nat :=
  if s.plans.any (fun q => q.name == plan.name) then
    (s, Except.error ("ConstraintError"))
  else
    let stored : StoredPlan :=
      { id := s.nextPlanId
        name := plan.name
        exercises := plan.exercises
        schedule := plan.schedule
        createdAt := now
        updatedAt := plan.updatedAt }
    ({ s with plans := s.plans ++ [stored], nextPlanId := s.nextPlanId + 1 },
     Except.ok s.nextPlanId)

/-- The object spread of updatePlan: the patch's fields override the
stored plan's; optional patch fields (id, updatedAt) only when
present. No timestamp is generated here. -/
def mergePlan (old : StoredPlan) (p : PlanPatch) : StoredPlan :=
  { id := p.id.getD old.id
    name := p.name
    exercises := p.exercises
    schedule := p.schedule
    createdAt := p.createdAt
    updatedAt := match p.updatedAt with | some v => some v | none => old.updatedAt }

/-- store.put on the plans store (keyPath id). -/
def putPlan (q : StoredPlan) (l : List StoredPlan) : List StoredPlan :=
  if l.any (fun x => x.id == q.id) then
    l.map (fun x => if x.id == q.id then q else x)
  else l ++ [q]

/-- updatePlan: store.get by id; rejects with a not-found error when
absent, leaving the store untouched; otherwise spreads the patch over
the stored plan and puts the result. The put can still violate the
unique name index, which aborts the transaction. -/
def updatePlan (id : Nat) (plan : PlanPatch) (s : DB) : DB × Except String Bool :=
  match s.plans.find? (fun q => q.id == id) with
  | none => (s, Except.error ("Plan not found"))
  | some existingPlan =>
    let updatedPlan := mergePlan existingPlan plan
    if s.plans.any (fun q => !(q.id == updatedPlan.id) && q.name == updatedPlan.name) then
      (s, Except.error ("ConstraintError"))
    else
      ({ s with plans := putPlan updatedPlan s.plans }, Except.ok true)

/-- Lexicographic order on character sequences, via code points; on
YYYY-MM-DD date strings this is the chronological order the source
obtains from Date.getTime. -/
def lexLe : List Char → List Char → Bool
  | [], _ => true
  | _ :: _, [] => false
  | a :: as, b :: bs =>
    if a.toNat < b.toNat then true
    else if b.toNat < a.toNat then false
    else lexLe as bs

/-- The ascending comparator (a, b) => dateOf(a) - dateOf(b) of the
source, as a boolean "a sorts no later than b". -/
def dateLeB (a b : StoredRecord) : Bool :=
  lexLe a.date.data b.date.data

/-- The descending comparator (a, b) => dateOf(b) - dateOf(a) of the
source. -/
def dateGeB (a b : StoredRecord) : Bool :=
  lexLe b.date.data a.date.data

/-- Stable insertion of an element into a list: it goes in front of
the first element it compares le to. -/
def insertLe (le : α → α → Bool) (a : α) : List α → List α
  | [] => [a]
  | b :: l => if le a b then a :: b :: l else b :: insertLe le a l

/-- Stable sort by a boolean comparator; agrees with the (stable)
Array.prototype.sort of the source on any total preorder. -/
def sortLe (le : α → α → Bool) : List α → List α
  | [] => []
  | a :: l => insertLe le a (sortLe le l)

/-- Number(x.toFixed(1)) for a finite value: round to the nearest
tenth, ties to the larger value. -/
def round1 (q : ℚ) : ℚ :=
  (⌊q * 10 + 1 / 2⌋ : ℚ) / 10

/-- interface stats of the source, as computed by getExerciseStats
(improvement and averageRPE are always assigned numbers there). -/
structure Stats where
  totalWorkouts : Nat
  averageCount : ℚ
  maxCount : ℚ
  minCount : ℚ
  lastWorkout : StoredRecord
  firstWorkout : StoredRecord
  improvement : ℚ
  averageRPE : ℚ
deriving DecidableEq

/-- Fallback record for head operations on lists that are provably
nonempty at every use site. -/
def dummyRecord : StoredRecord :=
  { id := 0, exerciseName := "", date := "", time := "", count := 0,
    rpe := none, note := "", weight := none, unit := none }

/-- The counts array of getExerciseStats: records.map(r => r.count). -/
def countsOf (records : List StoredRecord) : List ℚ :=
  records.map (fun r => r.count)

/-- Math.max over the (nonempty) counts array. -/
def maxCountOf (records : List StoredRecord) : ℚ :=
  ((countsOf records).tail).foldl max ((countsOf records).headD 0)

/-- Math.min over the (nonempty) counts array. -/
def minCountOf (records : List StoredRecord) : ℚ :=
  ((countsOf records).tail).foldl min ((countsOf records).headD 0)

/-- The averageCount of getExerciseStats: the reduce-sum of the
counts divided by their number. -/
def averageCountOf (records : List StoredRecord) : ℚ :=
  (countsOf records).foldl (fun sum count => sum + count) 0 / ((countsOf records).length : ℚ)

/-- lastWorkout: the head of the records sorted by descending date
(the stable Array.prototype.sort of the source). -/
def lastWorkoutOf (records : List StoredRecord) : StoredRecord :=
  (sortLe dateGeB records).headD dummyRecord

/-- firstWorkout: the source re-sorts the (already descending-sorted,
mutated) array by ascending date and takes the head. -/
def firstWorkoutOf (records : List StoredRecord) : StoredRecord :=
  (sortLe dateLeB (sortLe dateGeB records)).headD dummyRecord

/-- improvement: the percentage gain from the first workout's count
to the maximum count, rounded to one decimal by toFixed, when the
maximum exceeds it; 0 otherwise. -/
def improvementOf (records : List StoredRecord) : ℚ :=
  if maxCountOf records > (firstWorkoutOf records).count then
    round1 ((maxCountOf records - (firstWorkoutOf records).count) /
      (firstWorkoutOf records).count * 100)
  else 0

/-- The rpe values of the records whose rpe is neither null nor
undefined. -/
def rpeListOf (records : List StoredRecord) : List ℚ :=
  records.filterMap (fun r => r.rpe)

/-- averageRPE: the mean of the non-null rpe values, left at its
initial 0 when there are none. -/
def averageRPEOf (records : List StoredRecord) : ℚ :=
  if 0 < (rpeListOf records).length then
    (rpeListOf records).foldl (fun sum rpe => sum + rpe) 0 / ((rpeListOf records).length : ℚ)
  else 0

/-- The stats object getExerciseStats builds for a nonempty records
array. -/
def mkStats (records : List StoredRecord) : Stats :=
  { totalWorkouts := records.length
    averageCount := averageCountOf records
    maxCount := maxCountOf records
    minCount := minCountOf records
    lastWorkout := lastWorkoutOf records
    firstWorkout := firstWorkoutOf records
    improvement := improvementOf records
    averageRPE := averageRPEOf records }

/-- getExerciseStats: null stats when the exercise has no records,
otherwise the aggregate above. The stats field of the returned
ExerciseStats object is modelled; the echoed exerciseName is
dropped. -/
def getExerciseStats (exerciseName : String) (s : DB) : Option Stats :=
  if (getRecordsByExercise exerciseName s).length = 0 then none
  else some (mkStats (getRecordsByExercise exerciseName s))

/-- The schedule well-formedness the specification asks addPlan to
enforce (the regular expression on seven schedule characters); stated
from the specification, the source has no counterpart. -/
def scheduleMatchesSpec (s : String) : Bool :=
  s.data.length == 7 && s.data.all (fun c => c == '0' || c == '1')

/-- Well-formedness of the records store: every stored id is a
generated key, hence nonzero. Every reachable database satisfies
this (the generator starts at 1). -/
def RecordsWf (s : DB) : Prop :=
  ∀ r ∈ s.records, r.id ≠ 0

instance (s : DB) : Decidable (RecordsWf s) :=
  inferInstanceAs (Decidable (∀ r ∈ s.records, r.id ≠ 0))

/-- Transitivity of a boolean comparator. -/
def TransB (le : α → α → Bool) : Prop :=
  ∀ a b c, le a b = true → le b c = true → le a c = true

/-- Totality of a boolean comparator. -/
def TotalB (le : α → α → Bool) : Prop :=
  ∀ a b, le a b = true ∨ le b a = true

/-- Concrete data used to instantiate the theorems below. -/
def exA : Exercise :=
  { name := "a", type := "strength", defaultCount := "3s10r", instruction := "" }

def exB : Exercise :=
  { name := "b", type := "cardio", defaultCount := "45", instruction := "" }

def exDB3 : DB :=
  { emptyDB with exercises := [exA, exB] }

def squat : Exercise :=
  { name := "Squats", type := "strength", defaultCount := "3s15r",
    instruction := "Keep your knees aligned with your toes" }

def rec21 : StoredRecord :=
  { id := 1, exerciseName := "Squats", date := "2024-01-01", time := "07:00:00",
    count := 10, rpe := some 7, note := "", weight := none, unit := some ("lbs") }

def rec22 : StoredRecord :=
  { id := 2, exerciseName := "Squats", date := "2024-01-02", time := "07:00:00",
    count := 12, rpe := some 8, note := "", weight := none, unit := some ("lbs") }

def rec23 : StoredRecord :=
  { id := 3, exerciseName := "Squats", date := "2024-01-03", time := "07:00:00",
    count := 15, rpe := some 9, note := "", weight := some 100, unit := some ("lbs") }

def db2 : DB :=
  { exercises := [squat, exA], records := [rec21, rec22, rec23],
    nextRecordId := 4, plans := [], nextPlanId := 1 }

def rec10 : StoredRecord :=
  { id := 1, exerciseName := "Plank", date := "2024-01-01", time := "07:00:00",
    count := 30, rpe := none, note := "", weight := none, unit := some ("lbs") }

def db10 : DB :=
  { emptyDB with records := [rec10], nextRecordId := 2 }

def patch6 : RecordPatch :=
  { id := none, exerciseName := "Squats", date := "2024-01-05", time := "08:00:00",
    count := 14, rpe := some 9, note := "pr", weight := none, unit := none }

def rIn8 : RecordInput :=
  { exerciseName := "Push-ups", date := "", time := "", count := 20,
    rpe := some 0, note := "", weight := some 0, unit := none }

def badPlan : PlanInput :=
  { name := "P", exercises := [], schedule := "1", createdAt := "2024-01-01T00:00:00Z",
    updatedAt := none }

def c4Plan : StoredPlan :=
  { id := 1, name := "P", exercises := [{ name := "Push-ups", count := -1 }],
    schedule := "1111111", createdAt := "2024-01-01T00:00:00Z", updatedAt := none }

def c4DB : DB :=
  { emptyDB with plans := [c4Plan], nextPlanId := 2 }

def c4Patch : PlanPatch :=
  { id := none, name := "P2", exercises := [{ name := "Push-ups", count := -1 }],
    schedule := "0000000", createdAt := "2024-01-01T00:00:00Z", updatedAt := none }

def exA2 : Exercise :=
  { name := "a", type := "core", defaultCount := "30", instruction := "hold" }

/-- Replacing every hit of a predicate by a fixed element that itself
satisfies the predicate makes find? return that element. -/
theorem find?_replace {α : Type} (p : α → Bool) (e : α) (pe : p e = true) :
    ∀ l : List α, l.any p = true →
      (l.map (fun x => if p x then e else x)).find? p = some e := by
  intro l
  induction l with
  | nil => intro h; simp at h
  | cons x xs ih =>
    intro h
    by_cases hx : p x = true
    · simp [List.find?_cons, hx, pe]
    · have hb : p x = false := by simpa using hx
      have h' : xs.any p = true := by simpa [List.any_cons, hb] using h
      simpa [List.find?_cons, hb] using ih h'

/-- C7: for every exercise e, addExercise e succeeds and a subsequent
getExercise e.name returns exactly e; when an exercise of the same
name already exists, the store keeps its size and the stored exercise
is replaced in place rather than the operation failing. -/
theorem addExercise_upsert_roundtrip (s : DB) (e : Exercise) :
    (addExercise e s).2 = true ∧
    getExercise e.name (addExercise e s).1 = some e ∧
    (s.exercises.any (fun x => x.name == e.name) = true →
      getAllExercises (addExercise e s).1 =
        s.exercises.map (fun x => if x.name == e.name then e else x)) := by
  refine ⟨rfl, ?_, ?_⟩
  · show (putExercise e s.exercises).find? (fun x => x.name == e.name) = some e
    unfold putExercise
    by_cases h : s.exercises.any (fun x => x.name == e.name) = true
    · rw [if_pos h]
      exact find?_replace _ e (by simp) s.exercises h
    · have hfalse : s.exercises.any (fun x => x.name == e.name) = false := by
        simpa using h
      rw [if_neg (by simp [hfalse])]
      rw [List.find?_append]
      have hnone : s.exercises.find? (fun x => x.name == e.name) = none := by
        rw [List.find?_eq_none]
        intro x hx
        have := List.any_eq_false.mp hfalse x hx
        simpa using this
      simp [hnone]
  · intro h
    show putExercise e s.exercises = _
    unfold putExercise
    rw [if_pos h]

/-- C7 witness: adding an exercise named a over a store that already
holds an exercise named a replaces it in place. -/
theorem addExercise_upsert_roundtrip_witness :
    (exDB3.exercises.any (fun x => x.name == exA2.name) = true) ∧
    getAllExercises (addExercise exA2 exDB3).1 = [exA2, exB] := by
  refine ⟨by decide, ?_⟩
  have h := (addExercise_upsert_roundtrip exDB3 exA2).2.2 (by decide)
  rw [h]
  decide

/-- C3: updateExercise deletes the entry under oldName and inserts
the updated exercise; when the new name already belongs to a
different exercise the insert raises a ConstraintError and the
transaction aborts, leaving the database exactly as before, so the
exercise under oldName survives; otherwise the operation succeeds,
the updated exercise is retrievable under its name, and the stored
exercises are exactly the previous ones minus oldName plus the new
record. -/
theorem updateExercise_rename_atomic (s : DB) (oldName : String) (e : Exercise) :
    ((∃ x ∈ s.exercises, x.name = e.name ∧ x.name ≠ oldName) →
      updateExercise oldName e s = (s, Except.error ("ConstraintError"))) ∧
    ((∀ x ∈ s.exercises, x.name = e.name → x.name = oldName) →
      (updateExercise oldName e s).2 = Except.ok true ∧
      getExercise e.name (updateExercise oldName e s).1 = some e ∧
      (∀ x, x ∈ (updateExercise oldName e s).1.exercises ↔
        (x ∈ s.exercises ∧ x.name ≠ oldName) ∨ x = e)) := by
  constructor
  · rintro ⟨x, hmem, hname, hne⟩
    have hany : (s.exercises.filter (fun x => !(x.name == oldName))).any
        (fun x => x.name == e.name) = true := by
      rw [List.any_eq_true]
      refine ⟨x, List.mem_filter.mpr ⟨hmem, by simp [hne]⟩, by simp [hname]⟩
    unfold updateExercise
    rw [if_pos hany]
  · intro hall
    have hany : (s.exercises.filter (fun x => !(x.name == oldName))).any
        (fun x => x.name == e.name) = false := by
      rw [List.any_eq_false]
      intro x hx
      obtain ⟨hmem, hno⟩ := List.mem_filter.mp hx
      intro hbeq
      have hname : x.name = e.name := by simpa using hbeq
      have : x.name = oldName := hall x hmem hname
      simp [this] at hno
    have hres : updateExercise oldName e s =
        ({ s with exercises :=
            s.exercises.filter (fun x => !(x.name == oldName)) ++ [e] }, Except.ok true) := by
      unfold updateExercise
      rw [if_neg (by simp [hany])]
    refine ⟨by rw [hres], ?_, ?_⟩
    · rw [hres]
      show (_ ++ [e]).find? (fun x => x.name == e.name) = some e
      rw [List.find?_append]
      have hnone : (s.exercises.filter (fun x => !(x.name == oldName))).find?
          (fun x => x.name == e.name) = none := by
        rw [List.find?_eq_none]
        intro x hx hbeq
        exact absurd hbeq (by simpa using List.any_eq_false.mp hany x hx)
      simp [hnone]
    · intro x
      rw [hres]
      show x ∈ _ ++ [e] ↔ _
      simp only [List.mem_append, List.mem_filter, List.mem_singleton]
      constructor
      · rintro (⟨hm, hn⟩ | hx)
        · exact Or.inl ⟨hm, by simpa using hn⟩
        · exact Or.inr hx
      · rintro (⟨hm, hn⟩ | hx)
        · exact Or.inl ⟨hm, by simpa using hn⟩
        · exact Or.inr hx

/-- C3 witness: renaming exercise a to the already-taken name b is
rejected with a ConstraintError and the database is returned
unchanged, exercise a included. -/
theorem updateExercise_rename_atomic_witness :
    (∃ x ∈ exDB3.exercises, x.name = exB.name ∧ x.name ≠ "a") ∧
    updateExercise "a" exB exDB3 = (exDB3, Except.error ("ConstraintError")) :=
  ⟨by decide, (updateExercise_rename_atomic exDB3 "a" exB).1 (by decide)⟩

/-- C9: deleteRecord and updateRecord reject every falsy id — the
undefined id and the id 0 alike — with the Record ID is required
error, leaving the database unchanged, so a record stored under id 0
could never be deleted or updated through them. -/
theorem record_ops_reject_falsy_id (s : DB) (p : RecordPatch) :
    deleteRecord none s = (s, Except.error ("Record ID is required")) ∧
    deleteRecord (some 0) s = (s, Except.error ("Record ID is required")) ∧
    updateRecord none p s = (s, Except.error ("Record ID is required")) ∧
    updateRecord (some 0) p s = (s, Except.error ("Record ID is required")) := by
  refine ⟨?_, ?_, ?_, ?_⟩ <;> simp [deleteRecord, updateRecord, jsIdFalsy]

/-- C8: addRecord appends exactly one record, returns the generated
id, stores a falsy rpe (null, undefined or 0) as null and a falsy
weight as null, defaults a missing unit to lbs, and never leaves the
unit field absent. -/
theorem addRecord_normalizes_fields (s : DB) (nowDate nowTime : String) (r : RecordInput) :
    ∃ stored : StoredRecord,
      (addRecord nowDate nowTime r s).1.records = s.records ++ [stored] ∧
      (addRecord nowDate nowTime r s).2 = s.nextRecordId ∧
      (r.rpe = none ∨ r.rpe = some 0 → stored.rpe = none) ∧
      (∀ v, r.rpe = some v → v ≠ 0 → stored.rpe = some v) ∧
      (r.weight = none ∨ r.weight = some 0 → stored.weight = none) ∧
      (∀ v, r.weight = some v → v ≠ 0 → stored.weight = some v) ∧
      (r.unit = none → stored.unit = some ("lbs")) ∧
      stored.unit ≠ none := by
  refine ⟨_, rfl, rfl, ?_, ?_, ?_, ?_, ?_, by simp [addRecord]⟩
  · rintro (h | h) <;> simp [addRecord, jsNumOrNull, jsNumFalsy, h]
  · intro v hv hv0
    simp [addRecord, jsNumOrNull, jsNumFalsy, hv, hv0]
  · rintro (h | h) <;> simp [addRecord, jsNumOrNull, jsNumFalsy, h]
  · intro v hv hv0
    simp [addRecord, jsNumOrNull, jsNumFalsy, hv, hv0]
  · intro h
    simp [addRecord, jsOptStrOr, h]

/-- C8 witness: a record supplied with rpe 0, weight 0 and no unit is
stored with null rpe, null weight and unit lbs. -/
theorem addRecord_normalizes_fields_witness :
    rIn8.rpe = some 0 ∧ rIn8.weight = some 0 ∧ rIn8.unit = none ∧
    ∃ stored : StoredRecord,
      (addRecord "2024-01-02" "08:00:00" rIn8 emptyDB).1.records =
        emptyDB.records ++ [stored] ∧
      stored.rpe = none ∧ stored.weight = none ∧ stored.unit = some ("lbs") := by
  refine ⟨rfl, rfl, rfl, ?_⟩
  obtain ⟨st, h1, _, h3, _, h5, _, h7, _⟩ :=
    addRecord_normalizes_fields emptyDB "2024-01-02" "08:00:00" rIn8
  exact ⟨st, h1, h3 (Or.inr rfl), h5 (Or.inr rfl), h7 rfl⟩

/-- The per-record deletion loop of deleteExercise does not touch the
exercises store. -/
theorem foldl_delete_exercises :
    ∀ (recs : List StoredRecord) (s : DB),
      (recs.foldl (fun acc record =>
        if record.id ≠ 0 then deleteRecordKey record.id acc else acc) s).exercises =
        s.exercises := by
  intro recs
  induction recs with
  | nil => intro s; rfl
  | cons q rest ih =>
    intro s
    rw [List.foldl_cons, ih]
    by_cases hq : q.id ≠ 0 <;> simp [hq, deleteRecordKey]

/-- A record surviving the per-record deletion loop was already
stored and differs in id from every fetched record with a truthy
id. -/
theorem mem_foldl_delete :
    ∀ (recs : List StoredRecord) (s : DB) (r : StoredRecord),
      r ∈ (recs.foldl (fun acc record =>
        if record.id ≠ 0 then deleteRecordKey record.id acc else acc) s).records →
      r ∈ s.records ∧ ∀ q ∈ recs, q.id ≠ 0 → r.id ≠ q.id := by
  intro recs
  induction recs with
  | nil =>
    intro s r hr
    exact ⟨hr, by simp⟩
  | cons q rest ih =>
    intro s r hr
    rw [List.foldl_cons] at hr
    obtain ⟨hmem, hrest⟩ := ih _ r hr
    by_cases hq : q.id ≠ 0
    · rw [if_pos hq] at hmem
      obtain ⟨hmem', hid⟩ := List.mem_filter.mp hmem
      refine ⟨hmem', ?_⟩
      intro q' hq' _
      rcases List.mem_cons.mp hq' with hEq | hIn
      · subst hEq
        simpa using hid
      · exact hrest q' hIn (by assumption)
    · rw [if_neg hq] at hmem
      refine ⟨hmem, ?_⟩
      intro q' hq' hq'0
      rcases List.mem_cons.mp hq' with hEq | hIn
      · subst hEq; exact absurd hq'0 hq
      · exact hrest q' hIn hq'0

/-- C2: on a well-formed database (every stored record id is a
generated, nonzero key), deleteExercise n resolves true, afterwards
getRecordsByExercise n is empty and getExercise n is not found, and
the operation factors into a records-only phase — which removes
every record of the exercise while leaving the exercises store
untouched — followed by the deletion of the exercise itself. -/
theorem deleteExercise_cascades (s : DB) (n : String) (hwf : RecordsWf s) :
    (deleteExercise n s).2 = true ∧
    getRecordsByExercise n (deleteExercise n s).1 = [] ∧
    getExercise n (deleteExercise n s).1 = none ∧
    ∃ mid : DB,
      mid.exercises = s.exercises ∧
      getRecordsByExercise n mid = [] ∧
      (deleteExercise n s).1 =
        { mid with exercises := mid.exercises.filter (fun e => !(e.name == n)) } := by
  have hs1rec : ∀ r ∈ ((getRecordsByExercise n s).foldl (fun acc record =>
      if record.id ≠ 0 then deleteRecordKey record.id acc else acc) s).records,
      ¬(r.exerciseName == n) = true := by
    intro r hr hname
    obtain ⟨hmem, hall⟩ := mem_foldl_delete (getRecordsByExercise n s) s r hr
    have hrin : r ∈ getRecordsByExercise n s := List.mem_filter.mpr ⟨hmem, hname⟩
    exact hall r hrin (hwf r hmem) rfl
  have hmidrec : getRecordsByExercise n ((getRecordsByExercise n s).foldl
      (fun acc record =>
        if record.id ≠ 0 then deleteRecordKey record.id acc else acc) s) = [] := by
    rw [getRecordsByExercise, List.filter_eq_nil_iff]
    exact hs1rec
  refine ⟨rfl, ?_, ?_, ?_⟩
  · show List.filter _ _ = []
    rw [List.filter_eq_nil_iff]
    exact hs1rec
  · show List.find? _ (List.filter _ _) = none
    rw [List.find?_eq_none]
    intro e he
    have := (List.mem_filter.mp he).2
    simpa using this
  · exact ⟨_, foldl_delete_exercises _ s, hmidrec, rfl⟩

/-- C2 witness: deleting Squats, which owns exactly the three stored
records, leaves no Squats records and no Squats exercise behind. -/
theorem deleteExercise_cascades_witness :
    RecordsWf db2 ∧
    getRecordsByExercise "Squats" (deleteExercise "Squats" db2).1 = [] ∧
    getExercise "Squats" (deleteExercise "Squats" db2).1 = none := by
  refine ⟨by decide, ?_, ?_⟩
  · exact (deleteExercise_cascades db2 "Squats" (by decide)).2.1
  · exact (deleteExercise_cascades db2 "Squats" (by decide)).2.2.1

/-- A put record is a member of the store it was put into. -/
theorem mem_putRecord_self (r : StoredRecord) (l : List StoredRecord) :
    r ∈ putRecord r l := by
  unfold putRecord
  by_cases h : l.any (fun x => x.id == r.id) = true
  · rw [if_pos h]
    obtain ⟨x, hx, hxid⟩ := List.any_eq_true.mp h
    exact List.mem_map.mpr ⟨x, hx, by rw [if_pos hxid]⟩
  · rw [if_neg (by simpa using h)]
    simp

/-- C6: updateRecord with a nonzero id whose record does not exist
rejects with the descriptive Record not found error and leaves the
database — the records collection included — unchanged; when the
target exists, the patch is spread over the stored record and the
merged record is persisted into the store. -/
theorem updateRecord_not_found_or_merges (s : DB) (rid : Nat) (p : RecordPatch)
    (h0 : rid ≠ 0) :
    (s.records.find? (fun r => r.id == rid) = none →
      updateRecord (some rid) p s = (s, Except.error ("Record not found"))) ∧
    (∀ old, s.records.find? (fun r => r.id == rid) = some old →
      (updateRecord (some rid) p s).2 = Except.ok true ∧
      (updateRecord (some rid) p s).1.records = putRecord (mergeRecord old p) s.records ∧
      mergeRecord old p ∈ (updateRecord (some rid) p s).1.records) := by
  have hfalsy : jsIdFalsy (some rid) = false := by
    simp [jsIdFalsy, h0]
  constructor
  · intro hfind
    unfold updateRecord
    rw [hfalsy]
    simp [hfind]
  · intro old hfind
    have hres : updateRecord (some rid) p s =
        ({ s with records := putRecord (mergeRecord old p) s.records }, Except.ok true) := by
      unfold updateRecord
      rw [hfalsy]
      simp [hfind]
    rw [hres]
    exact ⟨rfl, rfl, mem_putRecord_self _ _⟩

/-- C6 witness: updating the unknown id 99 on the sample database is
rejected with Record not found and changes nothing, and updating the
existing id 2 persists the merged record. -/
theorem updateRecord_not_found_or_merges_witness :
    (99 : Nat) ≠ 0 ∧ db2.records.find? (fun r => r.id == 99) = none ∧
    updateRecord (some 99) patch6 db2 = (db2, Except.error ("Record not found")) ∧
    db2.records.find? (fun r => r.id == 2) = some rec22 ∧
    mergeRecord rec22 patch6 ∈ (updateRecord (some 2) patch6 db2).1.records := by
  refine ⟨by decide, by decide, ?_, by decide, ?_⟩
  · exact (updateRecord_not_found_or_merges db2 99 patch6 (by decide)).1 (by decide)
  · exact ((updateRecord_not_found_or_merges db2 2 patch6 (by decide)).2 rec22
      (by decide)).2.2

/-- C1 counterexample: a plan whose schedule does not match the
seven-character 0/1 pattern and whose exercises list is empty is
nevertheless accepted by addPlan — which validates nothing — and the
plans collection observed via getAllPlans does change. -/
theorem addPlan_accepts_invalid_schedule :
    scheduleMatchesSpec badPlan.schedule = false ∧
    badPlan.exercises = [] ∧
    (addPlan "2024-05-05T00:00:00Z" badPlan emptyDB).2 = Except.ok 1 ∧
    getAllPlans (addPlan "2024-05-05T00:00:00Z" badPlan emptyDB).1 ≠
      getAllPlans emptyDB := by
  decide

/-- C1 amended: addPlan performs no validation of schedule, name or
exercises; whenever the plan's name does not collide with a stored
plan (the unique name index being the only way the insert can fail),
the plan is inserted with a generated id and a system createdAt —
even when its schedule does not match the 0/1 pattern — and
getAllPlans afterwards is the previous list extended by the new
plan. -/
theorem addPlan_inserts_without_validation (s : DB) (now : String) (p : PlanInput)
    (h : ∀ q ∈ s.plans, q.name ≠ p.name) :
    (addPlan now p s).2 = Except.ok s.nextPlanId ∧
    getAllPlans (addPlan now p s).1 = getAllPlans s ++
      [{ id := s.nextPlanId, name := p.name, exercises := p.exercises,
         schedule := p.schedule, createdAt := now, updatedAt := p.updatedAt }] := by
  have hany : s.plans.any (fun q => q.name == p.name) = false := by
    rw [List.any_eq_false]
    intro q hq
    simpa using h q hq
  unfold addPlan
  rw [if_neg (by simp [hany])]
  exact ⟨rfl, rfl⟩

/-- C1 amended witness: the invalid-schedule plan is inserted into
the fresh database. -/
theorem addPlan_inserts_without_validation_witness :
    (∀ q ∈ emptyDB.plans, q.name ≠ badPlan.name) ∧
    scheduleMatchesSpec badPlan.schedule = false ∧
    (addPlan "2024-05-05T00:00:00Z" badPlan emptyDB).2 = Except.ok 1 := by
  refine ⟨by decide, by decide, ?_⟩
  exact (addPlan_inserts_without_validation emptyDB "2024-05-05T00:00:00Z" badPlan
    (by decide)).1

/-- C4 counterexample: updating the stored plan with id 1 by a patch
that carries no updatedAt succeeds, yet the stored plan's updatedAt
is still absent afterwards: updatePlan does not set the timestamp. -/
theorem updatePlan_does_not_set_updatedAt :
    c4DB.plans.find? (fun q => q.id == 1) = some c4Plan ∧
    c4Plan.updatedAt = none ∧ c4Patch.updatedAt = none ∧
    (updatePlan 1 c4Patch c4DB).2 = Except.ok true ∧
    (updatePlan 1 c4Patch c4DB).1.plans.find? (fun q => q.id == 1) =
      some { id := 1, name := "P2", exercises := [{ name := "Push-ups", count := -1 }],
             schedule := "0000000", createdAt := "2024-01-01T00:00:00Z",
             updatedAt := none } := by
  decide

/-- C4 amended: updatePlan fails with the Plan not found error —
leaving the database unchanged — when no plan has the given id; when
the target exists (and the merged name does not collide with a
different plan under the unique name index) the patch fields are
spread over the stored plan and the result is persisted, and the
stored updatedAt afterwards is the patch's when the patch carries
one and the previous value otherwise: updatePlan itself generates no
timestamp. -/
theorem updatePlan_merges_or_not_found (s : DB) (id : Nat) (p : PlanPatch) :
    (s.plans.find? (fun q => q.id == id) = none →
      updatePlan id p s = (s, Except.error ("Plan not found"))) ∧
    (∀ old, s.plans.find? (fun q => q.id == id) = some old →
      (∀ q ∈ s.plans, q.id = (mergePlan old p).id ∨ q.name ≠ (mergePlan old p).name) →
      (updatePlan id p s).2 = Except.ok true ∧
      (updatePlan id p s).1.plans = putPlan (mergePlan old p) s.plans ∧
      (mergePlan old p).updatedAt =
        (match p.updatedAt with | some v => some v | none => old.updatedAt)) := by
  constructor
  · intro hfind
    unfold updatePlan
    simp [hfind]
  · intro old hfind hnocol
    have hany : s.plans.any (fun q =>
        !(q.id == (mergePlan old p).id) && q.name == (mergePlan old p).name) = false := by
      rw [List.any_eq_false]
      intro q hq
      rcases hnocol q hq with h | h <;> simp [h]
    have hres : updatePlan id p s =
        ({ s with plans := putPlan (mergePlan old p) s.plans }, Except.ok true) := by
      unfold updatePlan
      simp only [hfind]
      rw [if_neg (by simp [hany])]
    rw [hres]
    exact ⟨rfl, rfl, rfl⟩

/-- C4 amended witness: id 99 is not found and nothing changes; the
plan with id 1 is merged with the patch and persisted. -/
theorem updatePlan_merges_or_not_found_witness :
    c4DB.plans.find? (fun q => q.id == 99) = none ∧
    updatePlan 99 c4Patch c4DB = (c4DB, Except.error ("Plan not found")) ∧
    c4DB.plans.find? (fun q => q.id == 1) = some c4Plan ∧
    (updatePlan 1 c4Patch c4DB).1.plans = putPlan (mergePlan c4Plan c4Patch) c4DB.plans := by
  refine ⟨by decide, ?_, by decide, ?_⟩
  · exact (updatePlan_merges_or_not_found c4DB 99 c4Patch).1 (by decide)
  · exact ((updatePlan_merges_or_not_found c4DB 1 c4Patch).2 c4Plan (by decide)
      (by decide)).2.1

theorem mem_insertLe {le : α → α → Bool} {x a : α} :
    ∀ {l : List α}, x ∈ insertLe le a l ↔ x = a ∨ x ∈ l := by
  intro l
  induction l with
  | nil => simp [insertLe]
  | cons b t ih =>
    unfold insertLe
    by_cases h : le a b = true
    · simp [h]
    · have hf : le a b = false := by simpa using h
      simp only [hf, Bool.false_eq_true, if_false, List.mem_cons, ih]
      tauto

theorem mem_sortLe {le : α → α → Bool} {x : α} :
    ∀ {l : List α}, x ∈ sortLe le l ↔ x ∈ l := by
  intro l
  induction l with
  | nil => simp [sortLe]
  | cons a t ih => simp [sortLe, mem_insertLe, ih]

theorem sortLe_ne_nil {le : α → α → Bool} {l : List α} (h : l ≠ []) :
    sortLe le l ≠ [] := by
  intro hs
  cases l with
  | nil => exact h rfl
  | cons a t =>
    have ha : a ∈ sortLe le (a :: t) := mem_sortLe.mpr (List.mem_cons_self a t)
    rw [hs] at ha
    simp at ha

theorem headD_mem {l : List α} (d : α) (h : l ≠ []) : l.headD d ∈ l := by
  cases l with
  | nil => exact absurd rfl h
  | cons a t => simp

theorem pairwise_insertLe {le : α → α → Bool} (htr : TransB le) (hto : TotalB le)
    {a : α} : ∀ {l : List α}, l.Pairwise (fun x y => le x y = true) →
      (insertLe le a l).Pairwise (fun x y => le x y = true) := by
  intro l
  induction l with
  | nil =>
    intro _
    simp [insertLe]
  | cons b t ih =>
    intro h
    obtain ⟨hb, ht⟩ := List.pairwise_cons.mp h
    unfold insertLe
    by_cases hab : le a b = true
    · rw [if_pos hab, List.pairwise_cons]
      refine ⟨?_, h⟩
      intro y hy
      rcases List.mem_cons.mp hy with rfl | hyt
      · exact hab
      · exact htr a b y hab (hb y hyt)
    · rw [if_neg hab, List.pairwise_cons]
      refine ⟨?_, ih ht⟩
      intro y hy
      rcases mem_insertLe.mp hy with rfl | hyt
      · rcases hto y b with h1 | h1
        · exact absurd h1 hab
        · exact h1
      · exact hb y hyt

theorem pairwise_sortLe {le : α → α → Bool} (htr : TransB le) (hto : TotalB le) :
    ∀ (l : List α), (sortLe le l).Pairwise (fun x y => le x y = true) := by
  intro l
  induction l with
  | nil => simp [sortLe]
  | cons a t ih => exact pairwise_insertLe htr hto ih

/-- The head of a sorted nonempty list is below every member. -/
theorem sortLe_headD_min {le : α → α → Bool} (htr : TransB le) (hto : TotalB le)
    (l : List α) (d x : α) (hx : x ∈ sortLe le l) :
    le ((sortLe le l).headD d) x = true := by
  have hp := pairwise_sortLe htr hto l
  cases hs : sortLe le l with
  | nil =>
    rw [hs] at hx
    simp at hx
  | cons h t =>
    rw [hs] at hx hp
    rw [List.headD_cons]
    rcases List.mem_cons.mp hx with rfl | hxt
    · rcases hto x x with h1 | h1 <;> exact h1
    · exact (List.pairwise_cons.mp hp).1 x hxt

theorem lexLe_total : ∀ a b : List Char, lexLe a b = true ∨ lexLe b a = true := by
  intro a
  induction a with
  | nil => intro b; exact Or.inl rfl
  | cons x xs ih =>
    intro b
    cases b with
    | nil => exact Or.inr rfl
    | cons y ys =>
      simp only [lexLe]
      by_cases h1 : x.toNat < y.toNat
      · left
        rw [if_pos h1]
      · by_cases h2 : y.toNat < x.toNat
        · right
          rw [if_pos h2]
        · simp only [h1, h2, if_false]
          exact ih ys

theorem lexLe_trans : ∀ a b c : List Char,
    lexLe a b = true → lexLe b c = true → lexLe a c = true := by
  intro a
  induction a with
  | nil => intro b c _ _; rfl
  | cons x xs ih =>
    intro b c hab hbc
    cases b with
    | nil => simp [lexLe] at hab
    | cons y ys =>
      cases c with
      | nil => simp [lexLe] at hbc
      | cons z zs =>
        simp only [lexLe] at hab hbc ⊢
        split_ifs at hab hbc ⊢ <;>
          first
            | rfl
            | omega
            | exact ih ys zs hab hbc

theorem dateLeB_transB : TransB dateLeB :=
  fun a b c => lexLe_trans a.date.data b.date.data c.date.data

theorem dateLeB_totalB : TotalB dateLeB :=
  fun a b => lexLe_total a.date.data b.date.data

theorem dateGeB_transB : TransB dateGeB :=
  fun a b c hab hbc => lexLe_trans c.date.data b.date.data a.date.data hbc hab

theorem dateGeB_totalB : TotalB dateGeB :=
  fun a b => lexLe_total b.date.data a.date.data

theorem le_foldl_max {α : Type} [LinearOrder α] :
    ∀ (l : List α) (a : α), a ≤ l.foldl max a := by
  intro l
  induction l with
  | nil => intro a; simp
  | cons b t ih =>
    intro a
    exact le_trans (le_max_left a b) (ih (max a b))

theorem foldl_max_le_of_mem {α : Type} [LinearOrder α] :
    ∀ (l : List α) (a x : α), x ∈ l → x ≤ l.foldl max a := by
  intro l
  induction l with
  | nil =>
    intro a x hx
    simp at hx
  | cons b t ih =>
    intro a x hx
    rcases List.mem_cons.mp hx with rfl | hxt
    · exact le_trans (le_max_right a x) (le_foldl_max t (max a x))
    · exact ih (max a b) x hxt

theorem foldl_max_mem {α : Type} [LinearOrder α] :
    ∀ (l : List α) (a : α), l.foldl max a ∈ a :: l := by
  intro l
  induction l with
  | nil => intro a; simp
  | cons b t ih =>
    intro a
    rw [List.foldl_cons]
    rcases List.mem_cons.mp (ih (max a b)) with hEq | hIn
    · rw [hEq]
      rcases max_choice a b with h | h <;> rw [h] <;> simp
    · simp [hIn]

theorem foldl_min_le {α : Type} [LinearOrder α] :
    ∀ (l : List α) (a : α), l.foldl min a ≤ a := by
  intro l
  induction l with
  | nil => intro a; simp
  | cons b t ih =>
    intro a
    exact le_trans (ih (min a b)) (min_le_left a b)

theorem foldl_min_le_of_mem {α : Type} [LinearOrder α] :
    ∀ (l : List α) (a x : α), x ∈ l → l.foldl min a ≤ x := by
  intro l
  induction l with
  | nil =>
    intro a x hx
    simp at hx
  | cons b t ih =>
    intro a x hx
    rcases List.mem_cons.mp hx with rfl | hxt
    · exact le_trans (foldl_min_le t (min a x)) (min_le_right a x)
    · exact ih (min a b) x hxt

theorem foldl_min_mem {α : Type} [LinearOrder α] :
    ∀ (l : List α) (a : α), l.foldl min a ∈ a :: l := by
  intro l
  induction l with
  | nil => intro a; simp
  | cons b t ih =>
    intro a
    rw [List.foldl_cons]
    rcases List.mem_cons.mp (ih (min a b)) with hEq | hIn
    · rw [hEq]
      rcases min_choice a b with h | h <;> rw [h] <;> simp
    · simp [hIn]

/-- C5: getExerciseStats returns the null result precisely when the
exercise has no records; on a nonempty record list it reports
totalWorkouts as the number of records, averageCount as the mean of
the counts, maxCount and minCount as attained maximum and minimum of
the counts, firstWorkout as a record of the earliest date and
lastWorkout of the latest, improvement 0 when the maximum count does
not exceed the first workout's count and the one-decimal-rounded
percentage gain from the first workout's count to the maximum
otherwise, and averageRPE as the mean over the records with non-null
rpe. -/
theorem getExerciseStats_correct (s : DB) (n : String) :
    (getRecordsByExercise n s = [] → getExerciseStats n s = none) ∧
    (∀ r0 rs, getRecordsByExercise n s = r0 :: rs →
      ∃ st, getExerciseStats n s = some st ∧
        st.totalWorkouts = (r0 :: rs).length ∧
        st.averageCount =
          ((r0 :: rs).map (fun r => r.count)).sum / (((r0 :: rs).length : ℚ)) ∧
        st.maxCount ∈ (r0 :: rs).map (fun r => r.count) ∧
        (∀ c ∈ (r0 :: rs).map (fun r => r.count), c ≤ st.maxCount) ∧
        st.minCount ∈ (r0 :: rs).map (fun r => r.count) ∧
        (∀ c ∈ (r0 :: rs).map (fun r => r.count), st.minCount ≤ c) ∧
        st.firstWorkout ∈ r0 :: rs ∧
        (∀ r ∈ r0 :: rs, dateLeB st.firstWorkout r = true) ∧
        st.lastWorkout ∈ r0 :: rs ∧
        (∀ r ∈ r0 :: rs, dateGeB st.lastWorkout r = true) ∧
        (st.maxCount ≤ st.firstWorkout.count → st.improvement = 0) ∧
        (st.firstWorkout.count < st.maxCount →
          st.improvement =
            round1 ((st.maxCount - st.firstWorkout.count) / st.firstWorkout.count * 100)) ∧
        st.averageRPE =
          (if 0 < ((r0 :: rs).filterMap (fun r => r.rpe)).length then
            ((r0 :: rs).filterMap (fun r => r.rpe)).sum /
              ((((r0 :: rs).filterMap (fun r => r.rpe)).length : ℚ))
          else 0)) := by
  constructor
  · intro h
    unfold getExerciseStats
    rw [h]
    simp
  · intro r0 rs h
    refine ⟨mkStats (r0 :: rs), ?_, rfl, ?_, ?_, ?_, ?_, ?_, ?_, ?_, ?_, ?_, ?_, ?_, ?_⟩
    · unfold getExerciseStats
      rw [h]
      rw [if_neg (by simp)]
    · show averageCountOf (r0 :: rs) = _
      rw [averageCountOf, ← List.sum_eq_foldl, countsOf, List.length_map]
    · show maxCountOf (r0 :: rs) ∈ _
      rw [maxCountOf, countsOf, List.map_cons, List.tail_cons, List.headD_cons]
      exact foldl_max_mem _ _
    · intro c hc
      show c ≤ maxCountOf (r0 :: rs)
      rw [maxCountOf, countsOf, List.map_cons, List.tail_cons, List.headD_cons]
      rw [List.map_cons] at hc
      rcases List.mem_cons.mp hc with rfl | hct
      · exact le_foldl_max _ _
      · exact foldl_max_le_of_mem _ _ _ hct
    · show minCountOf (r0 :: rs) ∈ _
      rw [minCountOf, countsOf, List.map_cons, List.tail_cons, List.headD_cons]
      exact foldl_min_mem _ _
    · intro c hc
      show minCountOf (r0 :: rs) ≤ c
      rw [minCountOf, countsOf, List.map_cons, List.tail_cons, List.headD_cons]
      rw [List.map_cons] at hc
      rcases List.mem_cons.mp hc with rfl | hct
      · exact foldl_min_le _ _
      · exact foldl_min_le_of_mem _ _ _ hct
    · show firstWorkoutOf (r0 :: rs) ∈ r0 :: rs
      rw [firstWorkoutOf]
      have hne : sortLe dateLeB (sortLe dateGeB (r0 :: rs)) ≠ [] :=
        sortLe_ne_nil (sortLe_ne_nil (by simp))
      exact mem_sortLe.mp (mem_sortLe.mp (headD_mem _ hne))
    · intro r hr
      show dateLeB (firstWorkoutOf (r0 :: rs)) r = true
      rw [firstWorkoutOf]
      exact sortLe_headD_min dateLeB_transB dateLeB_totalB _ dummyRecord r
        (mem_sortLe.mpr (mem_sortLe.mpr hr))
    · show lastWorkoutOf (r0 :: rs) ∈ r0 :: rs
      rw [lastWorkoutOf]
      have hne : sortLe dateGeB (r0 :: rs) ≠ [] := sortLe_ne_nil (by simp)
      exact mem_sortLe.mp (headD_mem _ hne)
    · intro r hr
      show dateGeB (lastWorkoutOf (r0 :: rs)) r = true
      rw [lastWorkoutOf]
      exact sortLe_headD_min dateGeB_transB dateGeB_totalB _ dummyRecord r
        (mem_sortLe.mpr hr)
    · intro hle
      show improvementOf (r0 :: rs) = 0
      have hle' : maxCountOf (r0 :: rs) ≤ (firstWorkoutOf (r0 :: rs)).count := hle
      rw [improvementOf, if_neg (not_lt.mpr hle')]
    · intro hlt
      show improvementOf (r0 :: rs) =
        round1 ((maxCountOf (r0 :: rs) - (firstWorkoutOf (r0 :: rs)).count) /
          (firstWorkoutOf (r0 :: rs)).count * 100)
      have hlt' : (firstWorkoutOf (r0 :: rs)).count < maxCountOf (r0 :: rs) := hlt
      rw [improvementOf, if_pos hlt']
    · show averageRPEOf (r0 :: rs) = _
      rw [averageRPEOf, rpeListOf, ← List.sum_eq_foldl]

/-- C5 witness: on the Squats records with counts 10, 12 and 15 and
first count 10 the stats are the specification's example — maxCount
15, minCount 10, averageCount 37/3, improvement 50 — and the general
theorem applies with its nonemptiness hypothesis discharged. -/
theorem getExerciseStats_correct_witness :
    getRecordsByExercise "Squats" db2 = [rec21, rec22, rec23] ∧
    (∃ st, getExerciseStats "Squats" db2 = some st ∧
      st.firstWorkout ∈ [rec21, rec22, rec23] ∧
      (∀ r ∈ [rec21, rec22, rec23], dateLeB st.firstWorkout r = true)) ∧
    getExerciseStats "Squats" db2 = some
      { totalWorkouts := 3, averageCount := 37 / 3, maxCount := 15, minCount := 10,
        lastWorkout := rec23, firstWorkout := rec21, improvement := 50,
        averageRPE := 8 } := by
  have hrecs : getRecordsByExercise "Squats" db2 = [rec21, rec22, rec23] := by decide
  refine ⟨hrecs, ?_, ?_⟩
  · obtain ⟨st, h1, _, _, _, _, _, _, h8, h9, _⟩ :=
      (getExerciseStats_correct db2 "Squats").2 rec21 [rec22, rec23] hrecs
    exact ⟨st, h1, h8, h9⟩
  · have hcounts : countsOf [rec21, rec22, rec23] = [10, 12, 15] := by decide
    have hfw : firstWorkoutOf [rec21, rec22, rec23] = rec21 := by decide
    have hlw : lastWorkoutOf [rec21, rec22, rec23] = rec23 := by decide
    have hmax : maxCountOf [rec21, rec22, rec23] = 15 := by
      rw [maxCountOf, hcounts]
      norm_num
    have hmin : minCountOf [rec21, rec22, rec23] = 10 := by
      rw [minCountOf, hcounts]
      norm_num
    have havg : averageCountOf [rec21, rec22, rec23] = 37 / 3 := by
      rw [averageCountOf, hcounts]
      norm_num
    have hrpe : rpeListOf [rec21, rec22, rec23] = [7, 8, 9] := by decide
    have havgrpe : averageRPEOf [rec21, rec22, rec23] = 8 := by
      rw [averageRPEOf, hrpe]
      norm_num
    have himp : improvementOf [rec21, rec22, rec23] = 50 := by
      rw [improvementOf, hmax, hfw]
      rw [if_pos (show (15 : ℚ) > rec21.count by norm_num [rec21])]
      have harg : ((15 : ℚ) - rec21.count) / rec21.count * 100 = 50 := by
        norm_num [rec21]
      rw [harg, round1]
      have hfl : ⌊(50 : ℚ) * 10 + 1 / 2⌋ = (500 : ℤ) := by
        norm_num [Int.floor_eq_iff]
      rw [hfl]
      norm_num
    unfold getExerciseStats
    rw [hrecs]
    rw [if_neg (by decide)]
    simp only [mkStats, Option.some.injEq, Stats.mk.injEq]
    exact ⟨by decide, havg, hmax, hmin, hlw, hfw, himp, havgrpe⟩

/-- C10: when an exercise has at least one record but none with a
non-null rpe, getExerciseStats still returns a stats object and its
averageRPE field is present with value 0. -/
theorem getExerciseStats_averageRPE_zero (s : DB) (n : String) (r0 : StoredRecord)
    (rs : List StoredRecord) (h : getRecordsByExercise n s = r0 :: rs)
    (hnull : ∀ r ∈ getRecordsByExercise n s, r.rpe = none) :
    ∃ st, getExerciseStats n s = some st ∧ st.averageRPE = 0 := by
  refine ⟨mkStats (r0 :: rs), ?_, ?_⟩
  · unfold getExerciseStats
    rw [h]
    rw [if_neg (by simp)]
  · show averageRPEOf (r0 :: rs) = 0
    have hnil : rpeListOf (r0 :: rs) = [] := by
      rw [rpeListOf, List.filterMap_eq_nil_iff]
      intro r hr
      refine hnull r ?_
      rw [h]
      exact hr
    rw [averageRPEOf, hnil]
    simp

/-- C10 witness: the single Plank record has a null rpe and the
returned stats object carries averageRPE 0. -/
theorem getExerciseStats_averageRPE_zero_witness :
    getRecordsByExercise "Plank" db10 = [rec10] ∧
    (∀ r ∈ getRecordsByExercise "Plank" db10, r.rpe = none) ∧
    ∃ st, getExerciseStats "Plank" db10 = some st ∧ st.averageRPE = 0 := by
  refine ⟨by decide, by decide, ?_⟩
  exact getExerciseStats_averageRPE_zero db10 "Plank" rec10 [] (by decide) (by decide)
